import Mathlib

/-!
Shallow embedding of the per-machine poller code of
`internal/backend/runtime/omni/controllers/omni/internal/task/machine/poll.go`
from the `omni` repository, together with theorems settling the frozen
claims about it.

Go pointers to `Info` become explicit state passing: each poller is a
function `Client → Info → Option GrpcError × Info`; the first component is
the returned error (`none` = nil), the second the `Info` after the run —
mutations made before a failure persist, exactly as with a Go pointer.
External library values (talos resource specs, address rendering, label
parsing) are modelled as structures carrying exactly the fields the code
reads, with external predicates (ULA membership, gateway validity,
physical link) as boolean fields of the input.
-/

/-- A gRPC-style error: the code is what `client.StatusCode` extracts. -/
structure GrpcError where
  code : Nat
  msg : String
deriving DecidableEq, Repr

/-- `codes.Unimplemented` of google.golang.org/grpc/codes. -/
def unimplementedCode : Nat := 12

/-- A remote resource scan: the resources delivered, in scan order,
followed by an optional failure (remote error or context cancellation)
after the listed items. A cancelled scan is a shorter item list with
`err ≠ none`. -/
structure Scan (α : Type) where
  items : List α
  err : Option GrpcError
deriving Repr

/-- A message of the `Version()` RPC response: `GetVersion().GetTag()` and
`GetVersion().GetArch()`. -/
structure VersionMessage where
  tag : String
  arch : String
deriving DecidableEq, Repr

/-- A disk entry of a `Disks()` RPC response message. -/
structure Disk where
  size : Nat
  model : String
  deviceName : String
  name : String
  serial : String
  uuid : String
  wwid : String
  typ : String
  busPath : String
  systemDisk : Bool
deriving DecidableEq, Repr

/-- A message of the `Disks()` RPC response: `GetDisks()`. -/
structure DisksMessage where
  disks : List Disk
deriving DecidableEq, Repr

/-- `network.HostnameStatus` typed spec: the fields `pollHostname` reads. -/
structure HostnameStatus where
  hostname : String
  domainname : String
deriving DecidableEq, Repr

/-- A route gateway (`netip.Addr`): its rendering `String()` and the
externally computed `IsValid()`. -/
structure NetAddr where
  repr : String
  isValid : Bool
deriving DecidableEq, Repr

/-- `network.RouteStatus` typed spec: `destIsZero` models
`value.IsZero(spec.Destination)`, `scope` the `nethelpers.Scope` value. -/
structure RouteStatus where
  destIsZero : Bool
  gateway : NetAddr
  scope : Nat
deriving DecidableEq, Repr

/-- `nethelpers.ScopeGlobal` (RT_SCOPE_UNIVERSE). -/
def scopeGlobal : Nat := 0

/-- One address of a `network.NodeAddress` resource: its rendering
`String()` and the externally computed
`network.IsULA(addr.Addr(), network.ULASideroLink)`. -/
structure IpAddress where
  repr : String
  ulaSideroLink : Bool
deriving DecidableEq, Repr

/-- A `network.NodeAddress` resource: metadata id plus spec addresses. -/
structure NodeAddressRes where
  id : String
  addresses : List IpAddress
deriving DecidableEq, Repr

/-- `network.NodeAddressCurrentID`. -/
def nodeAddressCurrentID : String := "current"

/-- `k8s.NodeAddressFilterNoK8s`. -/
def nodeAddressFilterNoK8s : String := "no-k8s"

/-- `network.FilteredNodeAddressID`: the id of the filtered variant of a
node-address resource. -/
def filteredNodeAddressID (id filterID : String) : String :=
  id ++ "-" ++ filterID

/-- `network.LinkStatus`: metadata id plus the spec fields
`pollNetworkLinks` reads; `physical` models `spec.Physical()`,
`speedMegabits` is the Go `int` field (so `Int` here). -/
structure LinkStatus where
  id : String
  physical : Bool
  hardwareAddr : String
  speedMegabits : Int
  linkState : Bool
  vendor : String
  product : String
deriving DecidableEq, Repr

/-- Go's `uint32(x)` conversion from a signed integer: truncation to 32
bits, two's complement. -/
def uint32ofInt (x : Int) : Nat :=
  (x % (2 ^ 32 : Int)).toNat

/-- `hardware.Processor` typed spec fields read by `pollProcessors`. -/
structure Processor where
  coreCount : Nat
  threadCount : Nat
  maxSpeed : Nat
  manufacturer : String
  productName : String
deriving DecidableEq, Repr

/-- `hardware.MemoryModule` typed spec fields read by `pollMemory`. -/
structure MemoryModule where
  size : Nat
  manufacturer : String
deriving DecidableEq, Repr

/-- `runtime.PlatformMetadata` typed spec fields read by
`pollPlatformMetadata`. -/
structure PlatformMetadataRes where
  platform : String
  hostname : String
  region : String
  zone : String
  instanceType : String
  instanceID : String
  providerID : String
  spot : Bool
deriving DecidableEq, Repr

/-- A label mapping (Go `map[string]string`); `none` = key absent. -/
def LabelMap : Type := String → Option String

/-- The result of `omnimeta.ParseLabels`: the decoded image-labels blob.
`none` models a nil Go map. -/
structure ImageLabels where
  labels : Option LabelMap
  legacyLabels : Option LabelMap

/-- A `runtime.MetaKey` resource: metadata id, and the result of parsing
its `TypedSpec().Value` with `omnimeta.ParseLabels` (the external parser is
modelled by carrying its outcome on the input). -/
structure MetaKeyRes where
  id : String
  parsedValue : Except GrpcError ImageLabels

/-- `omnimeta.LabelsMeta`: the meta tag reserved for machine labels
(concrete value irrelevant, only its derived id is compared). -/
def labelsMeta : Nat := 12

/-- `runtime.MetaKeyTagToID`: the resource id derived from a meta tag. -/
def metaKeyTagToID (tag : Nat) : String :=
  "0x" ++ toString tag

/-- `runtime.ExtensionStatus` entry: name, version, description. -/
structure ExtensionStatus where
  name : String
  version : String
  description : String
deriving DecidableEq, Repr

/-- The `MachineLabels` resource as `pollMeta` uses it:
`Metadata().Labels().Keys()`. -/
structure MachineLabelsRes where
  labelKeys : List String
deriving DecidableEq, Repr

/-- Output shape `specs.MachineStatusSpec_NetworkStatus_NetworkLinkStatus`. -/
structure NetworkLinkStatus where
  linuxName : String
  hardwareAddress : String
  speedMbps : Nat
  linkUp : Bool
  description : String
deriving DecidableEq, Repr

/-- Output shape `specs.MachineStatusSpec_HardwareStatus_Processor`. -/
structure ProcessorStatus where
  coreCount : Nat
  threadCount : Nat
  frequency : Nat
  manufacturer : String
  description : String
deriving DecidableEq, Repr

/-- Output shape `specs.MachineStatusSpec_HardwareStatus_MemoryModule`. -/
structure MemoryModuleStatus where
  sizeMb : Nat
  description : String
deriving DecidableEq, Repr

/-- Output shape `specs.MachineStatusSpec_HardwareStatus_BlockDevice`. -/
structure BlockDevice where
  size : Nat
  model : String
  linuxName : String
  name : String
  serial : String
  uuid : String
  wwid : String
  typ : String
  busPath : String
  systemDisk : Bool
deriving DecidableEq, Repr

/-- Output shape `specs.MachineStatusSpec_PlatformMetadata`. -/
structure PlatformMetadata where
  platform : String
  hostname : String
  region : String
  zone : String
  instanceType : String
  instanceId : String
  providerId : String
  spot : Bool
deriving DecidableEq, Repr

/-- Output shape `specs.MachineStatusSpec_Schematic`. -/
structure Schematic where
  id : String
  invalid : Bool
deriving DecidableEq, Repr

/-- Modelled from the spec: the in-memory per-machine `Info` snapshot (its
definition lives outside the excerpt; the spec lists its fields). Pointer
fields become `Option`, slice fields become lists (nil = `[]`). -/
structure Info where
  talosVersion : Option String := none
  arch : Option String := none
  hostname : Option String := none
  domainname : Option String := none
  addresses : List String := []
  defaultGateways : List String := []
  networkLinks : List NetworkLinkStatus := []
  processors : List ProcessorStatus := []
  memoryModules : List MemoryModuleStatus := []
  blockdevices : List BlockDevice := []
  platformMetadata : Option PlatformMetadata := none
  schematic : Option Schematic := none
  imageLabels : Option LabelMap := none
  maintenanceMode : Bool := false
  machineLabels : Option MachineLabelsRes := none

/-- The remote machine as the pollers see it: one scan per resource type
the resource pollers read, and the two unary RPC outcomes. An RPC error
yields a nil response (no messages). -/
structure Client where
  hostnameScan : Scan HostnameStatus := ⟨[], none⟩
  routeScan : Scan RouteStatus := ⟨[], none⟩
  nodeAddressScan : Scan NodeAddressRes := ⟨[], none⟩
  linkScan : Scan LinkStatus := ⟨[], none⟩
  processorScan : Scan Processor := ⟨[], none⟩
  memoryScan : Scan MemoryModule := ⟨[], none⟩
  platformMetadataScan : Scan PlatformMetadataRes := ⟨[], none⟩
  metaKeyScan : Scan MetaKeyRes := ⟨[], none⟩
  extensionScan : Scan ExtensionStatus := ⟨[], none⟩
  version : Except GrpcError (List VersionMessage) := .ok []
  disks : Except GrpcError (List DisksMessage) := .ok []

/-- Helper for `forEachResource`: apply the callback to each delivered
item in order, threading `Info`; a callback error aborts at once, and the
scan's own failure (if any) surfaces after the last delivered item. -/
def forEachItems (f : α → Info → Except GrpcError Info) (errAfter : Option GrpcError) :
    List α → Info → Option GrpcError × Info
  | [], info => (errAfter, info)
  | r :: rs, info =>
    match f r info with
    | .ok info2 => forEachItems f errAfter rs info2
    | .error e => (some e, info)

/-- Modelled from the spec: `forEachResource` (repository code outside the
excerpt) scans every resource of the given type on the remote and invokes
the callback per resource; a remote failure or context cancellation aborts
the scan, so only a prefix of the resources is delivered before the
error. -/
def forEachResource (f : α → Info → Except GrpcError Info) (scan : Scan α)
    (info : Info) : Option GrpcError × Info :=
  forEachItems f scan.err scan.items info

/-- The `for _, msg := range versionResp.GetMessages()` loop body of
`pollVersion`: store the tag and arch of each message. -/
def applyVersionMessages (msgs : List VersionMessage) (info : Info) : Info :=
  msgs.foldl (fun i msg => { i with talosVersion := some msg.tag, arch := some msg.arch }) info

/-- `pollVersion` (poll.go:67-79): call the `Version` RPC; a non-nil error
whose status code is not `Unimplemented` is returned as-is, otherwise the
messages of the response are folded into `Info` (on error the response is
nil, so `GetMessages` yields nothing). -/
def pollVersion (c : Client) (info : Info) : Option GrpcError × Info :=
  match c.version with
  | .error e =>
    if e.code ≠ unimplementedCode then (some e, info)
    else (none, applyVersionMessages [] info)
  | .ok msgs => (none, applyVersionMessages msgs info)

/-- The `pollHostname` callback (poll.go:87-92). -/
def hostnameItem (r : HostnameStatus) (i : Info) : Except GrpcError Info :=
  .ok { i with hostname := some r.hostname, domainname := some r.domainname }

/-- `pollHostname` (poll.go:81-93). -/
def pollHostname (c : Client) (info : Info) : Option GrpcError × Info :=
  forEachResource hostnameItem c.hostnameScan info

/-- `filterAddresses` (poll.go:95-105): the node-address id selected by
the mode. -/
def filterAddresses (maintenanceMode : Bool) (r : NodeAddressRes) : Bool :=
  if maintenanceMode then
    r.id = nodeAddressCurrentID
  else
    r.id = filteredNodeAddressID nodeAddressCurrentID nodeAddressFilterNoK8s

/-- The `pollAddresses` callback (poll.go:113-137): keep only the
mode-selected node-address resource; rebuild `Info.Addresses` from its
addresses, skipping SideroLink ULA addresses. -/
def addressItem (r : NodeAddressRes) (i : Info) : Except GrpcError Info :=
  if i.maintenanceMode then
    -- in maintenance mode, there is no Kubernetes, and filtered addresses
    if r.id ≠ nodeAddressCurrentID then .ok i
    else .ok { i with addresses := (r.addresses.filter (fun a => !a.ulaSideroLink)).map (fun a => a.repr) }
  else
    -- in normal mode, use filtered addresses (without Kubernetes)
    if r.id ≠ filteredNodeAddressID nodeAddressCurrentID nodeAddressFilterNoK8s then .ok i
    else .ok { i with addresses := (r.addresses.filter (fun a => !a.ulaSideroLink)).map (fun a => a.repr) }

/-- `pollAddresses` (poll.go:107-139). -/
def pollAddresses (c : Client) (info : Info) : Option GrpcError × Info :=
  forEachResource addressItem c.nodeAddressScan info

/-- `filterRoutes` (poll.go:141-143). -/
def filterRoutes (r : RouteStatus) : Bool :=
  r.destIsZero && r.gateway.isValid && r.scope == scopeGlobal

/-- The `pollRoutes` callback (poll.go:153-158): append the gateway of
every default (zero-destination), valid-gateway, global-scope route. -/
def routeItem (r : RouteStatus) (i : Info) : Except GrpcError Info :=
  if r.destIsZero && r.gateway.isValid && r.scope == scopeGlobal then
    .ok { i with defaultGateways := i.defaultGateways ++ [r.gateway.repr] }
  else .ok i

/-- `pollRoutes` (poll.go:145-160). -/
def pollRoutes (c : Client) (info : Info) : Option GrpcError × Info :=
  forEachResource routeItem c.routeScan { info with defaultGateways := [] }

/-- `filterNetworkLinks` (poll.go:162-164). -/
def filterNetworkLinks (r : LinkStatus) : Bool :=
  r.physical

/-- The link-status record built by `pollNetworkLinks` (poll.go:179-185). -/
def mkNetworkLink (r : LinkStatus) : NetworkLinkStatus :=
  { linuxName := r.id
    hardwareAddress := r.hardwareAddr
    speedMbps := uint32ofInt r.speedMegabits
    linkUp := r.linkState
    description := r.vendor ++ " " ++ r.product }

/-- The `pollNetworkLinks` callback (poll.go:174-187): append a record per
physical link. -/
def linkItem (r : LinkStatus) (i : Info) : Except GrpcError Info :=
  if !r.physical then .ok i
  else .ok { i with networkLinks := i.networkLinks ++ [mkNetworkLink r] }

/-- `pollNetworkLinks` (poll.go:166-189). -/
def pollNetworkLinks (c : Client) (info : Info) : Option GrpcError × Info :=
  forEachResource linkItem c.linkScan { info with networkLinks := [] }

/-- The processor record built by `pollProcessors` (poll.go:204-210). -/
def mkProcessor (r : Processor) : ProcessorStatus :=
  { coreCount := r.coreCount
    threadCount := r.threadCount
    frequency := r.maxSpeed
    manufacturer := r.manufacturer
    description := r.manufacturer ++ " " ++ r.productName }

/-- The `pollProcessors` callback (poll.go:199-212): skip entries with
zero core count or zero max speed, append the rest. -/
def processorItem (r : Processor) (i : Info) : Except GrpcError Info :=
  if r.coreCount == 0 || r.maxSpeed == 0 then .ok i
  else .ok { i with processors := i.processors ++ [mkProcessor r] }

/-- `pollProcessors` (poll.go:191-214). -/
def pollProcessors (c : Client) (info : Info) : Option GrpcError × Info :=
  forEachResource processorItem c.processorScan { info with processors := [] }

/-- The `pollMemory` callback (poll.go:224-234): skip entries with zero
size, append the rest. -/
def memoryItem (r : MemoryModule) (i : Info) : Except GrpcError Info :=
  if r.size == 0 then .ok i
  else .ok { i with memoryModules := i.memoryModules ++ [{ sizeMb := r.size, description := r.manufacturer }] }

/-- `pollMemory` (poll.go:216-236). -/
def pollMemory (c : Client) (info : Info) : Option GrpcError × Info :=
  forEachResource memoryItem c.memoryScan { info with memoryModules := [] }

/-- The platform-metadata record built by `pollPlatformMetadata`
(poll.go:245-254). -/
def mkPlatformMetadata (r : PlatformMetadataRes) : PlatformMetadata :=
  { platform := r.platform
    hostname := r.hostname
    region := r.region
    zone := r.zone
    instanceType := r.instanceType
    instanceId := r.instanceID
    providerId := r.providerID
    spot := r.spot }

/-- The `pollPlatformMetadata` callback (poll.go:244-256). -/
def platformMetadataItem (r : PlatformMetadataRes) (i : Info) : Except GrpcError Info :=
  .ok { i with platformMetadata := some (mkPlatformMetadata r) }

/-- `pollPlatformMetadata` (poll.go:238-258). -/
def pollPlatformMetadata (c : Client) (info : Info) : Option GrpcError × Info :=
  forEachResource platformMetadataItem c.platformMetadataScan info

/-- The block-device record built by `pollDisks` (poll.go:270-281). -/
def mkBlockDevice (d : Disk) : BlockDevice :=
  { size := d.size
    model := d.model
    linuxName := d.deviceName
    name := d.name
    serial := d.serial
    uuid := d.uuid
    wwid := d.wwid
    typ := d.typ
    busPath := d.busPath
    systemDisk := d.systemDisk }

/-- `pollDisks` (poll.go:260-286): reset `Info.Blockdevices` to nil, call
the `Disks` RPC (returning its error as-is on failure), then append a
record for every disk of every message. -/
def pollDisks (c : Client) (info : Info) : Option GrpcError × Info :=
  let info := { info with blockdevices := [] }
  match c.disks with
  | .error e => (some e, info)
  | .ok msgs =>
    (none, msgs.foldl (fun i msg => { i with blockdevices := i.blockdevices ++ msg.disks.map mkBlockDevice }) info)

/-- Go `delete(m, k)` on a label map. -/
def deleteKey (m : LabelMap) (k : String) : LabelMap :=
  fun q => if q = k then none else m q

/-- The `pollMeta` callback (poll.go:294-321): only the meta key whose id
is derived from the labels meta tag is consumed; its value is decoded
(decoding failure is returned as an error), with fallback to the legacy
labels shape when the decoded `Labels` map is nil; keys already defined in
the machine-labels resource are deleted; the result is stored in
`Info.ImageLabels`. -/
def pollMetaItem (metaKey : MetaKeyRes) (i : Info) : Except GrpcError Info :=
  if metaKey.id ≠ metaKeyTagToID labelsMeta then .ok i
  else
    match metaKey.parsedValue with
    | .error e => .error e
    | .ok imageLabels =>
      let labels := imageLabels.labels
      -- fallback to legacy labels
      let labels := match labels with
        | none => imageLabels.legacyLabels
        | some l => some l
      -- filter out labels which are already defined in the machine labels resource
      let labels := match labels, i.machineLabels with
        | some l, some ml => some (ml.labelKeys.foldl deleteKey l)
        | l, _ => l
      .ok { i with imageLabels := labels }

/-- `pollMeta` (poll.go:288-322). -/
def pollMeta (c : Client) (info : Info) : Option GrpcError × Info :=
  forEachResource pollMetaItem c.metaKeyScan info

/-- `constants.SchematicIDExtensionName` of the image-factory: the
description marking the schematic-id pseudo-extension. -/
def schematicIDMarker : String := "schematic-id"

/-- The canonical id of the empty schematic. -/
def defaultSchematicID : String := "default-schematic-id"

/-- The error space of schematic resolution: either the sentinel
`talos.ErrInvalidSchematic` or an RPC/scan failure. -/
inductive ResolveError where
  | invalidSchematic : ResolveError
  | rpc : GrpcError → ResolveError
deriving DecidableEq, Repr

/-- Modelled from the spec: `talos.GetSchematicID` (repository code
outside the excerpt, specified in §4.6 and exercised by
`TestMachineSchematic`). Scan the machine's `ExtensionStatus` entries: if
any entry's description equals the schematic-id marker, return that
entry's version; else if non-marker entries exist, fail with the
invalid-schematic sentinel; else return the default (empty-schematic) id.
A scan failure surfaces as an RPC error. -/
def GetSchematicID (scan : Scan ExtensionStatus) : Except ResolveError String :=
  match scan.err with
  | some e => .error (.rpc e)
  | none =>
    match scan.items.find? (fun e => e.description = schematicIDMarker) with
    | some e => .ok e.version
    | none =>
      if scan.items.isEmpty then .ok defaultSchematicID
      else .error .invalidSchematic

/-- `pollExtensions` (poll.go:324-342): store a fresh schematic in
`Info.Schematic` first (the Go code stores a pointer and then mutates
through it), then resolve: the invalid-schematic sentinel sets
`Invalid = true` and returns nil; any other error is returned; success
stores the id. -/
def pollExtensions (c : Client) (info : Info) : Option GrpcError × Info :=
  let info := { info with schematic := some { id := "", invalid := false } }
  match GetSchematicID c.extensionScan with
  | .ok id => (none, { info with schematic := some { id := id, invalid := false } })
  | .error .invalidSchematic => (none, { info with schematic := some { id := "", invalid := true } })
  | .error (.rpc e) => (some e, info)

/-- The type of a poller (`machinePollFunction`). -/
def MachinePollFunction : Type := Client → Info → Option GrpcError × Info

/-- `network.HostnameStatusType`. -/
def hostnameStatusType : String := "HostnameStatuses"

/-- `network.RouteStatusType`. -/
def routeStatusType : String := "RouteStatuses"

/-- `network.NodeAddressType`. -/
def nodeAddressType : String := "NodeAddresses"

/-- `network.LinkStatusType`. -/
def linkStatusType : String := "LinkStatuses"

/-- `hardware.ProcessorType`. -/
def processorType : String := "Processors"

/-- `hardware.MemoryModuleType`. -/
def memoryModuleType : String := "MemoryModules"

/-- `runtime.PlatformMetadataType`. -/
def platformMetadataType : String := "PlatformMetadatas"

/-- `runtime.MetaKeyType`. -/
def metaKeyType : String := "MetaKeys"

/-- `runtime.ExtensionStatusType`. -/
def extensionStatusType : String := "ExtensionStatuses"

/-- `resourcePollers` (poll.go:31-41), as a lookup function (a Go map is
key-based lookup; literal keys are distinct). -/
def resourcePollers (k : String) : Option MachinePollFunction :=
  if k = hostnameStatusType then some pollHostname
  else if k = routeStatusType then some pollRoutes
  else if k = nodeAddressType then some pollAddresses
  else if k = linkStatusType then some pollNetworkLinks
  else if k = processorType then some pollProcessors
  else if k = memoryModuleType then some pollMemory
  else if k = platformMetadataType then some pollPlatformMetadata
  else if k = metaKeyType then some pollMeta
  else if k = extensionStatusType then some pollExtensions
  else none

/-- `machinePollers` (poll.go:43-46). -/
def machinePollers (k : String) : Option MachinePollFunction :=
  if k = "version" then some pollVersion
  else if k = "disks" then some pollDisks
  else none

/-- `merged` (poll.go:50-56): clone `m1`, then copy `m2` over it — an
entry of `m2` overwrites one of `m1` with the same key. -/
def merged (m1 m2 : K → Option V) : K → Option V :=
  fun k =>
    match m2 k with
    | some v => some v
    | none => m1 k

/-- `allPollers` (poll.go:48). -/
def allPollers : String → Option MachinePollFunction :=
  merged resourcePollers machinePollers

/-- `poll` (poll.go:58-65): look the poller up by name and invoke it; an
unknown name panics (modelled as `none`). -/
def poll (poller : String) (c : Client) (info : Info) : Option (Option GrpcError × Info) :=
  match allPollers poller with
  | some f => some (f c info)
  | none => none

/-- The node-address resource id `pollAddresses` keeps, as a function of
the maintenance mode (poll.go:114-124). -/
def selectedNodeAddressID (maintenanceMode : Bool) : String :=
  if maintenanceMode then nodeAddressCurrentID
  else filteredNodeAddressID nodeAddressCurrentID nodeAddressFilterNoK8s

/-- The address list `pollAddresses` stores when it consumes a selected
node-address resource (poll.go:126-135). -/
def selectedAddresses (r : NodeAddressRes) : List String :=
  (r.addresses.filter (fun a => !a.ulaSideroLink)).map (fun a => a.repr)

/-- The last scanned node-address resource with the mode-selected id, if
any (the last consumed resource determines the stored addresses). -/
def lastSelected (maintenanceMode : Bool) : List NodeAddressRes → Option NodeAddressRes
  | [] => none
  | r :: rs =>
    match lastSelected maintenanceMode rs with
    | some x => some x
    | none => if r.id = selectedNodeAddressID maintenanceMode then some r else none

/-- The last scanned meta-key resource whose id is derived from the labels
meta tag, if any. -/
def lastLabelsKey : List MetaKeyRes → Option MetaKeyRes
  | [] => none
  | r :: rs =>
    match lastLabelsKey rs with
    | some x => some x
    | none => if r.id = metaKeyTagToID labelsMeta then some r else none

/-- The decoded label map of an image-labels blob: the `Labels` map, or
the `LegacyLabels` map when `Labels` is nil (poll.go:304-309). -/
def decodedLabels (blob : ImageLabels) : Option LabelMap :=
  match blob.labels with
  | none => blob.legacyLabels
  | some l => some l

/-- The image-label map `pollMeta` stores for a decoded blob: the decoded
map, masked by deleting every machine-labels key when both are present
(poll.go:304-318). -/
def metaApply (machineLabels : Option MachineLabelsRes) (blob : ImageLabels) : Option LabelMap :=
  match decodedLabels blob, machineLabels with
  | some l, some ml => some (ml.labelKeys.foldl deleteKey l)
  | l, _ => l

/-- Look a key up under an optional label map (nil map has no keys). -/
def getLabel (m : Option LabelMap) (k : String) : Option String :=
  match m with
  | none => none
  | some f => f k

/-- A cancellation-style error used in concrete counterexamples. -/
def errCancelled : GrpcError := ⟨1, "context canceled"⟩

/-- A concrete block device for counterexamples. -/
def sampleBlockDevice : BlockDevice :=
  { size := 1024, model := "m", linuxName := "sda", name := "n", serial := "s"
    uuid := "u", wwid := "w", typ := "HDD", busPath := "b", systemDisk := true }

/-- An `Info` holding previously observed gateways and block devices. -/
def infoWithData : Info :=
  { defaultGateways := ["10.0.0.1"], blockdevices := [sampleBlockDevice] }

/-- A client whose route scan is cancelled before delivering anything and
whose `Disks` RPC fails. -/
def failingClient : Client :=
  { routeScan := ⟨[], some errCancelled⟩, disks := .error errCancelled }

/-- The processor entries `pollProcessors` keeps: nonzero core count and
nonzero max speed (the negation of the skip condition at poll.go:200). -/
def keepProcessor (r : Processor) : Bool :=
  !(r.coreCount == 0 || r.maxSpeed == 0)

/-- The memory-module entries `pollMemory` keeps: nonzero size (the
negation of the skip condition at poll.go:225). -/
def keepMemoryModule (r : MemoryModule) : Bool :=
  !(r.size == 0)

/-- The memory-module record built by `pollMemory` (poll.go:229-232). -/
def mkMemoryModule (r : MemoryModule) : MemoryModuleStatus :=
  { sizeMb := r.size, description := r.manufacturer }

/-- A concrete kept processor entry (nonzero core count and max speed). -/
def sampleProcessor : Processor :=
  { coreCount := 4, threadCount := 8, maxSpeed := 2400, manufacturer := "Intel", productName := "Xeon" }

/-- A concrete kept memory-module entry (nonzero size). -/
def sampleMemory : MemoryModule :=
  { size := 2048, manufacturer := "Kingston" }

/-- A client delivering one processor and one memory module. -/
def hwClient : Client :=
  { processorScan := ⟨[sampleProcessor], none⟩, memoryScan := ⟨[sampleMemory], none⟩ }

/-- A client whose `Version` RPC fails with `Unimplemented`. -/
def unimplementedClient : Client :=
  { version := .error ⟨unimplementedCode, "unimplemented"⟩ }

/-- A client whose `Version` RPC fails with a non-`Unimplemented` code. -/
def brokenVersionClient : Client :=
  { version := .error ⟨13, "internal"⟩ }

/-- A client reporting a single unknown extension. -/
def invalidExtClient : Client :=
  { extensionScan := ⟨[⟨"unknown", "1", "unknown"⟩], none⟩ }

/-- A client reporting the schematic-id marker pseudo-extension. -/
def markerExtClient : Client :=
  { extensionScan := ⟨[⟨"schematic", "1234", schematicIDMarker⟩], none⟩ }

/-- A node-address resource with the "current" id, carrying one ordinary
address and one SideroLink ULA address. -/
def sampleNodeAddress : NodeAddressRes :=
  { id := nodeAddressCurrentID
    addresses := [⟨"10.0.0.1/24", false⟩, ⟨"fdae:41e4:649b:9303::1/64", true⟩] }

/-- A client delivering only `sampleNodeAddress`. -/
def addrClient : Client :=
  { nodeAddressScan := ⟨[sampleNodeAddress], none⟩ }

/-- An `Info` in maintenance mode. -/
def maintenanceInfo : Info :=
  { maintenanceMode := true }

/-- An image-labels blob with a decoded `Labels` map holding keys `a`
and `b`. -/
def imageBlob : ImageLabels :=
  { labels := some (fun k => if k = "a" then some "1" else if k = "b" then some "2" else none)
    legacyLabels := none }

/-- An image-labels blob with a nil `Labels` map and a legacy map. -/
def legacyBlob : ImageLabels :=
  { labels := none
    legacyLabels := some (fun k => if k = "legacy1" then some "v1" else none) }

/-- A meta key carrying `imageBlob` under the labels-meta id. -/
def labelsMetaKey : MetaKeyRes :=
  { id := metaKeyTagToID labelsMeta, parsedValue := .ok imageBlob }

/-- A meta key with an id that is not the labels-meta id. -/
def otherMetaKey : MetaKeyRes :=
  { id := "0x0a", parsedValue := .ok legacyBlob }

/-- A client delivering only `labelsMetaKey`. -/
def metaClient : Client :=
  { metaKeyScan := ⟨[labelsMetaKey], none⟩ }

/-- A client delivering only `otherMetaKey`. -/
def otherMetaClient : Client :=
  { metaKeyScan := ⟨[otherMetaKey], none⟩ }

/-- An `Info` with a machine-labels resource defining the key `a`. -/
def mlInfo : Info :=
  { machineLabels := some ⟨["a"]⟩ }

/-- The empty client (all scans empty and successful). -/
def emptyClient : Client := {}

/-- The zero-valued `Info`. -/
def emptyInfo : Info := {}

/-! ## Run characterizations of the pollers -/

/-- A `pollRoutes` run appends, in scan order, the gateway of every route
passing the default-route filter, after the initial reset. -/
theorem forEachItems_routes (its : List RouteStatus) (err : Option GrpcError) (i : Info) :
    forEachItems routeItem err its i =
    (err, { i with defaultGateways :=
      i.defaultGateways ++ (its.filter filterRoutes).map (fun r => r.gateway.repr) }) := by
  induction its generalizing i with
  | nil => simp [forEachItems]
  | cons r rs ih =>
    cases hc : (r.destIsZero && r.gateway.isValid && r.scope == scopeGlobal) with
    | true => simp [forEachItems, routeItem, hc, ih, filterRoutes, List.append_assoc]
    | false => simp [forEachItems, routeItem, hc, ih, filterRoutes]

/-- A `pollNetworkLinks` run appends, in scan order, a record per physical
link, after the initial reset. -/
theorem forEachItems_links (its : List LinkStatus) (err : Option GrpcError) (i : Info) :
    forEachItems linkItem err its i =
    (err, { i with networkLinks :=
      i.networkLinks ++ (its.filter filterNetworkLinks).map mkNetworkLink }) := by
  induction its generalizing i with
  | nil => simp [forEachItems]
  | cons r rs ih =>
    cases hc : r.physical with
    | true => simp [forEachItems, linkItem, hc, ih, filterNetworkLinks, List.append_assoc]
    | false => simp [forEachItems, linkItem, hc, ih, filterNetworkLinks]

/-- A `pollProcessors` run appends, in scan order, a record per kept
processor entry, after the initial reset. -/
theorem forEachItems_processors (its : List Processor) (err : Option GrpcError) (i : Info) :
    forEachItems processorItem err its i =
    (err, { i with processors :=
      i.processors ++ (its.filter keepProcessor).map mkProcessor }) := by
  induction its generalizing i with
  | nil => simp [forEachItems]
  | cons r rs ih =>
    cases hc : (r.coreCount == 0 || r.maxSpeed == 0) with
    | true => simp [forEachItems, processorItem, hc, ih, keepProcessor]
    | false => simp [forEachItems, processorItem, hc, ih, keepProcessor, List.append_assoc]

/-- A `pollMemory` run appends, in scan order, a record per kept
memory-module entry, after the initial reset. -/
theorem forEachItems_memory (its : List MemoryModule) (err : Option GrpcError) (i : Info) :
    forEachItems memoryItem err its i =
    (err, { i with memoryModules :=
      i.memoryModules ++ (its.filter keepMemoryModule).map mkMemoryModule }) := by
  induction its generalizing i with
  | nil => simp [forEachItems]
  | cons r rs ih =>
    cases hc : (r.size == 0) with
    | true => simp [forEachItems, memoryItem, hc, ih, keepMemoryModule]
    | false => simp [forEachItems, memoryItem, hc, ih, keepMemoryModule, mkMemoryModule, List.append_assoc]

/-- C6: after a run of `pollRoutes`, `Info.DefaultGateways` contains
exactly the gateways of the scanned routes whose destination is zero,
whose gateway is valid, and whose scope is global, in scan order; routes
failing any of the three conditions contribute nothing (this holds for
every run, in particular every successful one). -/
theorem pollRoutes_default_gateways (c : Client) (i : Info) :
    (pollRoutes c i).2.defaultGateways =
      (c.routeScan.items.filter filterRoutes).map (fun r => r.gateway.repr) := by
  simp [pollRoutes, forEachResource, forEachItems_routes]

/-- C9: after a run of `pollNetworkLinks`, `Info.NetworkLinks` contains
exactly the scanned link-status resources that are physical interfaces, in
scan order, each recorded (see `mkNetworkLink`) with its Linux name,
hardware (MAC) address, speed in Mbps, link-up state, and a description
combining vendor and product; non-physical links are excluded. -/
theorem pollNetworkLinks_physical_links (c : Client) (i : Info) :
    (pollNetworkLinks c i).2.networkLinks =
      (c.linkScan.items.filter filterNetworkLinks).map mkNetworkLink := by
  simp [pollNetworkLinks, forEachResource, forEachItems_links]

/-- C8: the hardware snapshot never contains a filtered-out entry: after
any run of `pollProcessors` every stored processor has nonzero core count
and nonzero frequency (max speed), and after any run of `pollMemory` every
stored memory module has nonzero size. -/
theorem hardware_filtered_entries_absent (c : Client) (i : Info) :
    (∀ p ∈ (pollProcessors c i).2.processors, p.coreCount ≠ 0 ∧ p.frequency ≠ 0) ∧
    (∀ m ∈ (pollMemory c i).2.memoryModules, m.sizeMb ≠ 0) := by
  constructor
  · intro p hp
    simp [pollProcessors, forEachResource, forEachItems_processors] at hp
    obtain ⟨r, ⟨hr, hkeep⟩, rfl⟩ := hp
    simp [keepProcessor] at hkeep
    simp [mkProcessor, hkeep]
  · intro m hm
    simp [pollMemory, forEachResource, forEachItems_memory] at hm
    obtain ⟨r, ⟨hr, hkeep⟩, rfl⟩ := hm
    simp [keepMemoryModule] at hkeep
    simp [mkMemoryModule, hkeep]

/-- Witness for C8 at a concrete client delivering one kept processor and
one kept memory module. -/
theorem hardware_filtered_entries_absent_witness :
    (mkProcessor sampleProcessor).coreCount ≠ 0 ∧ (mkProcessor sampleProcessor).frequency ≠ 0 ∧
      (mkMemoryModule sampleMemory).sizeMb ≠ 0 :=
  ⟨((hardware_filtered_entries_absent hwClient emptyInfo).1 (mkProcessor sampleProcessor) (by decide)).1,
   ((hardware_filtered_entries_absent hwClient emptyInfo).1 (mkProcessor sampleProcessor) (by decide)).2,
   (hardware_filtered_entries_absent hwClient emptyInfo).2 (mkMemoryModule sampleMemory) (by decide)⟩

/-- C1 (counterexample): with previously observed gateways and block
devices in `Info`, a cancelled route scan and a failing `Disks` RPC leave
`Info.DefaultGateways` and `Info.Blockdevices` different from their
pre-run values — both pollers clear their field before polling, so the
claimed no-partial-write framing fails. -/
theorem pollRoutes_pollDisks_clear_on_failure_cex :
    (pollRoutes failingClient infoWithData).1 = some errCancelled ∧
    (pollRoutes failingClient infoWithData).2.defaultGateways ≠ infoWithData.defaultGateways ∧
    (pollDisks failingClient infoWithData).1 = some errCancelled ∧
    (pollDisks failingClient infoWithData).2.blockdevices ≠ infoWithData.blockdevices :=
  ⟨rfl, by decide, rfl, by decide⟩

/-- C1 (amended): `pollRoutes` and `pollDisks` reset the fields they own
at the start of the run, so after a failed or cancelled run
`Info.Blockdevices` is nil and `Info.DefaultGateways` holds exactly the
gateways of the default routes delivered before the failure (not the
pre-run values). -/
theorem pollRoutes_pollDisks_failure_contents (c : Client) (i : Info) :
    ((pollDisks c i).1 ≠ none → (pollDisks c i).2.blockdevices = []) ∧
    ((pollRoutes c i).1 ≠ none →
      (pollRoutes c i).2.defaultGateways =
        (c.routeScan.items.filter filterRoutes).map (fun r => r.gateway.repr)) := by
  constructor
  · intro h
    cases hd : c.disks with
    | error e => simp [pollDisks, hd]
    | ok msgs => simp [pollDisks, hd] at h
  · intro _
    simp [pollRoutes, forEachResource, forEachItems_routes]

/-- Witness for the amended C1 at the failing client. -/
theorem pollRoutes_pollDisks_failure_contents_witness :
    (pollDisks failingClient infoWithData).2.blockdevices = [] ∧
    (pollRoutes failingClient infoWithData).2.defaultGateways = [] :=
  ⟨(pollRoutes_pollDisks_failure_contents failingClient infoWithData).1 (by decide),
   (pollRoutes_pollDisks_failure_contents failingClient infoWithData).2 (by decide)⟩

/-- C4: `pollVersion` treats an `Unimplemented` status from the `Version`
RPC as a silent no-op — it returns nil with `Info` (in particular
`TalosVersion` and `Arch`) unchanged — while any other RPC error is
returned as-is, also leaving `Info` unchanged. -/
theorem pollVersion_unimplemented_noop (c : Client) (i : Info) :
    (∀ e, c.version = .error e → e.code = unimplementedCode →
      pollVersion c i = (none, i)) ∧
    (∀ e, c.version = .error e → e.code ≠ unimplementedCode →
      pollVersion c i = (some e, i)) := by
  constructor
  · intro e he hcode
    simp [pollVersion, he, hcode, applyVersionMessages]
  · intro e he hcode
    simp [pollVersion, he, hcode]

/-- Witness for C4 at an `Unimplemented` failure and at an `Internal`
failure of the `Version` RPC. -/
theorem pollVersion_unimplemented_noop_witness :
    pollVersion unimplementedClient emptyInfo = (none, emptyInfo) ∧
    pollVersion brokenVersionClient emptyInfo = (some ⟨13, "internal"⟩, emptyInfo) :=
  ⟨(pollVersion_unimplemented_noop unimplementedClient emptyInfo).1
      ⟨unimplementedCode, "unimplemented"⟩ rfl rfl,
   (pollVersion_unimplemented_noop brokenVersionClient emptyInfo).2
      ⟨13, "internal"⟩ rfl (by decide)⟩

/-- C2: `pollExtensions` always stores a schematic in `Info.Schematic`;
when schematic resolution reports the invalid-schematic condition it sets
`Invalid` to true and returns nil (no error), and when resolution succeeds
with id `v` it stores `{id := v, invalid := false}`. -/
theorem pollExtensions_schematic_resolution (c : Client) (i : Info) :
    ((pollExtensions c i).2.schematic.isSome = true) ∧
    (GetSchematicID c.extensionScan = .error .invalidSchematic →
      pollExtensions c i = (none, { i with schematic := some { id := "", invalid := true } })) ∧
    (∀ v, GetSchematicID c.extensionScan = .ok v →
      pollExtensions c i = (none, { i with schematic := some { id := v, invalid := false } })) := by
  refine ⟨?_, ?_, ?_⟩
  · cases hg : GetSchematicID c.extensionScan with
    | ok v => simp [pollExtensions, hg]
    | error e => cases e <;> simp [pollExtensions, hg]
  · intro hg
    simp [pollExtensions, hg]
  · intro v hg
    simp [pollExtensions, hg]

/-- Witness for C2 at a client with one unknown extension (invalid
schematic) and at a client publishing the schematic-id marker. -/
theorem pollExtensions_schematic_resolution_witness :
    pollExtensions invalidExtClient emptyInfo =
      (none, { emptyInfo with schematic := some { id := "", invalid := true } }) ∧
    pollExtensions markerExtClient emptyInfo =
      (none, { emptyInfo with schematic := some { id := "1234", invalid := false } }) :=
  ⟨(pollExtensions_schematic_resolution invalidExtClient emptyInfo).2.1 rfl,
   (pollExtensions_schematic_resolution markerExtClient emptyInfo).2.2 "1234" rfl⟩

/-- C10: the dispatcher is total exactly on the registered poller names —
for each key of the resource-poller map and of the RPC-poller map, `poll`
invokes the corresponding poll function; any other key panics (modelled as
`none`); and in `merged`, an entry of the second (RPC) map wins over one
of the first with the same key. -/
theorem poll_dispatch_total (c : Client) (i : Info) :
    poll hostnameStatusType c i = some (pollHostname c i) ∧
    poll routeStatusType c i = some (pollRoutes c i) ∧
    poll nodeAddressType c i = some (pollAddresses c i) ∧
    poll linkStatusType c i = some (pollNetworkLinks c i) ∧
    poll processorType c i = some (pollProcessors c i) ∧
    poll memoryModuleType c i = some (pollMemory c i) ∧
    poll platformMetadataType c i = some (pollPlatformMetadata c i) ∧
    poll metaKeyType c i = some (pollMeta c i) ∧
    poll extensionStatusType c i = some (pollExtensions c i) ∧
    poll "version" c i = some (pollVersion c i) ∧
    poll "disks" c i = some (pollDisks c i) ∧
    (∀ k, k ∉ [hostnameStatusType, routeStatusType, nodeAddressType, linkStatusType,
        processorType, memoryModuleType, platformMetadataType, metaKeyType,
        extensionStatusType, "version", "disks"] →
      poll k c i = none) ∧
    (∀ (m1 m2 : String → Option MachinePollFunction) (k : String) (f : MachinePollFunction),
      m2 k = some f → merged m1 m2 k = some f) := by
  refine ⟨rfl, rfl, rfl, rfl, rfl, rfl, rfl, rfl, rfl, rfl, rfl, ?_, ?_⟩
  · intro k hk
    simp only [List.mem_cons, List.not_mem_nil, or_false] at hk
    push_neg at hk
    obtain ⟨h1, h2, h3, h4, h5, h6, h7, h8, h9, h10, h11⟩ := hk
    simp [poll, allPollers, merged, machinePollers, resourcePollers,
      h1, h2, h3, h4, h5, h6, h7, h8, h9, h10, h11]
  · intro m1 m2 k f h
    simp [merged, h]

/-- Witness for C10: an unregistered name panics, and a key of the RPC
map wins the merge. -/
theorem poll_dispatch_total_witness :
    poll "bogus" emptyClient emptyInfo = none ∧
    merged resourcePollers machinePollers "version" = some pollVersion :=
  ⟨(poll_dispatch_total emptyClient emptyInfo).2.2.2.2.2.2.2.2.2.2.2.1 "bogus" (by decide),
   (poll_dispatch_total emptyClient emptyInfo).2.2.2.2.2.2.2.2.2.2.2.2
      resourcePollers machinePollers "version" pollVersion rfl⟩

/-- A `pollAddresses` run stores the filtered addresses of the last
mode-selected node-address resource delivered, leaving `Info.Addresses`
unchanged when no resource is selected; the maintenance mode itself is
never modified. -/
theorem forEachItems_addresses (its : List NodeAddressRes) (err : Option GrpcError) (i : Info) :
    forEachItems addressItem err its i =
    (err, { i with addresses :=
      match lastSelected i.maintenanceMode its with
      | none => i.addresses
      | some r => selectedAddresses r }) := by
  induction its generalizing i with
  | nil => simp [forEachItems, lastSelected]
  | cons r rs ih =>
    cases hm : i.maintenanceMode with
    | true =>
      by_cases hid : r.id = nodeAddressCurrentID
      · cases hls : lastSelected true rs with
        | none =>
          simp [forEachItems, addressItem, hm, hid, ih, lastSelected, hls,
            selectedNodeAddressID, selectedAddresses]
        | some x =>
          simp [forEachItems, addressItem, hm, hid, ih, lastSelected, hls,
            selectedNodeAddressID, selectedAddresses]
      · cases hls : lastSelected true rs with
        | none =>
          simp [forEachItems, addressItem, hm, hid, ih, lastSelected, hls,
            selectedNodeAddressID]
        | some x =>
          simp [forEachItems, addressItem, hm, hid, ih, lastSelected, hls,
            selectedNodeAddressID]
    | false =>
      by_cases hid : r.id = filteredNodeAddressID nodeAddressCurrentID nodeAddressFilterNoK8s
      · cases hls : lastSelected false rs with
        | none =>
          simp [forEachItems, addressItem, hm, hid, ih, lastSelected, hls,
            selectedNodeAddressID, selectedAddresses]
        | some x =>
          simp [forEachItems, addressItem, hm, hid, ih, lastSelected, hls,
            selectedNodeAddressID, selectedAddresses]
      · cases hls : lastSelected false rs with
        | none =>
          simp [forEachItems, addressItem, hm, hid, ih, lastSelected, hls,
            selectedNodeAddressID]
        | some x =>
          simp [forEachItems, addressItem, hm, hid, ih, lastSelected, hls,
            selectedNodeAddressID]

/-- C5: `pollAddresses` updates `Info.Addresses` only from the
node-address resource selected by mode — in maintenance mode the resource
with the "current" id, otherwise the Kubernetes-filtered (no-k8s) id (see
`selectedNodeAddressID`) — and, for every address of the (last) selected
resource, its rendering appears in `Info.Addresses` iff the address is not
in the SideroLink ULA range (renderings of distinct addresses assumed
distinct, as they are for `netip.Prefix.String`). -/
theorem pollAddresses_mode_selection (c : Client) (i : Info) :
    (lastSelected i.maintenanceMode c.nodeAddressScan.items = none →
      (pollAddresses c i).2.addresses = i.addresses) ∧
    (∀ r, lastSelected i.maintenanceMode c.nodeAddressScan.items = some r →
      (pollAddresses c i).2.addresses = selectedAddresses r ∧
      ∀ a ∈ r.addresses,
        (∀ b ∈ r.addresses, b.repr = a.repr → b = a) →
        (a.repr ∈ (pollAddresses c i).2.addresses ↔ a.ulaSideroLink = false)) := by
  constructor
  · intro hnone
    simp [pollAddresses, forEachResource, forEachItems_addresses, hnone]
  · intro r hsome
    have haddr : (pollAddresses c i).2.addresses = selectedAddresses r := by
      simp [pollAddresses, forEachResource, forEachItems_addresses, hsome]
    refine ⟨haddr, ?_⟩
    intro a ha hinj
    rw [haddr]
    constructor
    · intro hmem
      simp only [selectedAddresses, List.mem_map, List.mem_filter] at hmem
      obtain ⟨b, ⟨hb, hbu⟩, hbr⟩ := hmem
      have hba : b = a := hinj b hb hbr
      subst hba
      simpa using hbu
    · intro hu
      simp only [selectedAddresses, List.mem_map, List.mem_filter]
      exact ⟨a, ⟨ha, by simp [hu]⟩, rfl⟩

/-- Witness for C5 at a maintenance-mode `Info` and a client delivering
one "current" node-address resource with one ordinary and one SideroLink
ULA address. -/
theorem pollAddresses_mode_selection_witness :
    (pollAddresses addrClient maintenanceInfo).2.addresses = ["10.0.0.1/24"] ∧
    ((⟨"10.0.0.1/24", false⟩ : IpAddress).repr ∈ (pollAddresses addrClient maintenanceInfo).2.addresses ↔
      (⟨"10.0.0.1/24", false⟩ : IpAddress).ulaSideroLink = false) :=
  ⟨((pollAddresses_mode_selection addrClient maintenanceInfo).2 sampleNodeAddress rfl).1,
   ((pollAddresses_mode_selection addrClient maintenanceInfo).2 sampleNodeAddress rfl).2
      ⟨"10.0.0.1/24", false⟩ (by decide) (by decide)⟩

/-- A meta key whose id is not the labels-meta id is left unconsumed. -/
theorem pollMetaItem_not_matching (mk : MetaKeyRes) (i : Info)
    (h : mk.id ≠ metaKeyTagToID labelsMeta) :
    pollMetaItem mk i = .ok i := by
  simp [pollMetaItem, h]

/-- Consuming the labels meta key stores the decoded (and masked) label
map, summarized by `metaApply`. -/
theorem pollMetaItem_matching (mk : MetaKeyRes) (i : Info) (blob : ImageLabels)
    (hid : mk.id = metaKeyTagToID labelsMeta) (hp : mk.parsedValue = .ok blob) :
    pollMetaItem mk i = .ok { i with imageLabels := metaApply i.machineLabels blob } := by
  cases hb : blob.labels with
  | none =>
    cases hml : i.machineLabels with
    | none => simp [pollMetaItem, hid, hp, metaApply, decodedLabels, hb, hml]
    | some ml =>
      cases hleg : blob.legacyLabels with
      | none => simp [pollMetaItem, hid, hp, metaApply, decodedLabels, hb, hml, hleg]
      | some l => simp [pollMetaItem, hid, hp, metaApply, decodedLabels, hb, hml, hleg]
  | some l =>
    cases hml : i.machineLabels with
    | none => simp [pollMetaItem, hid, hp, metaApply, decodedLabels, hb, hml]
    | some ml => simp [pollMetaItem, hid, hp, metaApply, decodedLabels, hb, hml]

/-- A parse failure of the labels meta key aborts the callback. -/
theorem pollMetaItem_parse_error (mk : MetaKeyRes) (i : Info) (e : GrpcError)
    (hid : mk.id = metaKeyTagToID labelsMeta) (hp : mk.parsedValue = .error e) :
    pollMetaItem mk i = .error e := by
  simp [pollMetaItem, hid, hp]

/-- A successful `pollMeta` run is determined by the last labels meta key
delivered: absent, `Info` is unchanged; present, its blob parsed
successfully and `Info.ImageLabels` holds the masked decoded map. -/
theorem forEachItems_meta (its : List MetaKeyRes) (err : Option GrpcError) (i : Info)
    (h : (forEachItems pollMetaItem err its i).1 = none) :
    (lastLabelsKey its = none → (forEachItems pollMetaItem err its i).2 = i) ∧
    (∀ mk, lastLabelsKey its = some mk → ∃ blob, mk.parsedValue = .ok blob ∧
      (forEachItems pollMetaItem err its i).2 = { i with imageLabels := metaApply i.machineLabels blob }) := by
  induction its generalizing i with
  | nil =>
    refine ⟨fun _ => rfl, fun mk hmk => ?_⟩
    simp [lastLabelsKey] at hmk
  | cons r rs ih =>
    by_cases hid : r.id = metaKeyTagToID labelsMeta
    · cases hp : r.parsedValue with
      | error e =>
        exfalso
        rw [show forEachItems pollMetaItem err (r :: rs) i = (some e, i) from by
          simp [forEachItems, pollMetaItem_parse_error r i e hid hp]] at h
        simp at h
      | ok blob =>
        have hrun : forEachItems pollMetaItem err (r :: rs) i =
            forEachItems pollMetaItem err rs { i with imageLabels := metaApply i.machineLabels blob } := by
          simp [forEachItems, pollMetaItem_matching r i blob hid hp]
        rw [hrun] at h ⊢
        have ihx := ih { i with imageLabels := metaApply i.machineLabels blob } h
        cases hls : lastLabelsKey rs with
        | none =>
          refine ⟨fun hnone => ?_, fun mk hmk => ?_⟩
          · rw [show lastLabelsKey (r :: rs) = some r from by simp [lastLabelsKey, hls, hid]] at hnone
            cases hnone
          · rw [show lastLabelsKey (r :: rs) = some r from by simp [lastLabelsKey, hls, hid]] at hmk
            cases hmk
            exact ⟨blob, hp, ihx.1 hls⟩
        | some x =>
          refine ⟨fun hnone => ?_, fun mk hmk => ?_⟩
          · rw [show lastLabelsKey (r :: rs) = some x from by simp [lastLabelsKey, hls]] at hnone
            cases hnone
          · rw [show lastLabelsKey (r :: rs) = some x from by simp [lastLabelsKey, hls]] at hmk
            cases hmk
            obtain ⟨blob2, hp2, hres⟩ := ihx.2 x hls
            exact ⟨blob2, hp2, hres⟩
    · have hrun : forEachItems pollMetaItem err (r :: rs) i =
          forEachItems pollMetaItem err rs i := by
        simp [forEachItems, pollMetaItem_not_matching r i hid]
      rw [hrun] at h ⊢
      have ihx := ih i h
      cases hls : lastLabelsKey rs with
      | none =>
        refine ⟨fun _ => ihx.1 hls, fun mk hmk => ?_⟩
        rw [show lastLabelsKey (r :: rs) = none from by simp [lastLabelsKey, hls, hid]] at hmk
        cases hmk
      | some x =>
        refine ⟨fun hnone => ?_, fun mk hmk => ?_⟩
        · rw [show lastLabelsKey (r :: rs) = some x from by simp [lastLabelsKey, hls]] at hnone
          cases hnone
        · rw [show lastLabelsKey (r :: rs) = some x from by simp [lastLabelsKey, hls]] at hmk
          cases hmk
          exact ihx.2 x hls

/-- Folding `deleteKey` over a key list removes exactly those keys. -/
theorem foldl_deleteKey (keys : List String) (m : LabelMap) (k : String) :
    keys.foldl deleteKey m k = if k ∈ keys then none else m k := by
  induction keys generalizing m with
  | nil => simp
  | cons a t ih =>
    simp only [List.foldl_cons, ih, List.mem_cons]
    by_cases hk : k ∈ t
    · simp [hk]
    · by_cases ha : k = a
      · simp [hk, ha, deleteKey]
      · simp [hk, ha, deleteKey]

/-- C3: after a successful `pollMeta` run that consumed a labels meta key
(the last one delivered, decoding to `blob`) with a non-nil
`Info.MachineLabels`, every label key of the machine-labels resource is
absent from the resulting `Info.ImageLabels`, and every other key carries
exactly its decoded value. -/
theorem pollMeta_machine_labels_mask (c : Client) (i : Info) (ml : MachineLabelsRes)
    (mk : MetaKeyRes) (blob : ImageLabels)
    (hml : i.machineLabels = some ml)
    (hok : (pollMeta c i).1 = none)
    (hlast : lastLabelsKey c.metaKeyScan.items = some mk)
    (hblob : mk.parsedValue = .ok blob) :
    (∀ k ∈ ml.labelKeys, getLabel (pollMeta c i).2.imageLabels k = none) ∧
    (∀ k, k ∉ ml.labelKeys →
      getLabel (pollMeta c i).2.imageLabels k = getLabel (decodedLabels blob) k) := by
  have hok2 : (forEachItems pollMetaItem c.metaKeyScan.err c.metaKeyScan.items i).1 = none := hok
  obtain ⟨blob2, hp2, hres⟩ :=
    (forEachItems_meta c.metaKeyScan.items c.metaKeyScan.err i hok2).2 mk hlast
  rw [hblob] at hp2
  injection hp2 with hb
  subst hb
  have hres2 : (pollMeta c i).2 = { i with imageLabels := metaApply i.machineLabels blob } := hres
  rw [hres2]
  constructor
  · intro k hk
    cases hd : decodedLabels blob with
    | none => simp [metaApply, hml, hd, getLabel]
    | some l => simp [metaApply, hml, hd, getLabel, foldl_deleteKey, hk]
  · intro k hk
    cases hd : decodedLabels blob with
    | none => simp [metaApply, hml, hd, getLabel]
    | some l => simp [metaApply, hml, hd, getLabel, foldl_deleteKey, hk]

/-- Witness for C3: the machine-labels key `a` is masked out of the
decoded image labels, while key `b` keeps its decoded value. -/
theorem pollMeta_machine_labels_mask_witness :
    getLabel (pollMeta metaClient mlInfo).2.imageLabels "a" = none ∧
    getLabel (pollMeta metaClient mlInfo).2.imageLabels "b" = getLabel (decodedLabels imageBlob) "b" :=
  ⟨(pollMeta_machine_labels_mask metaClient mlInfo ⟨["a"]⟩ labelsMetaKey imageBlob
      rfl rfl rfl rfl).1 "a" (by decide),
   (pollMeta_machine_labels_mask metaClient mlInfo ⟨["a"]⟩ labelsMetaKey imageBlob
      rfl rfl rfl rfl).2 "b" (by decide)⟩

/-- When no delivered meta key has the labels-meta id, a `pollMeta` run
leaves `Info` entirely unchanged. -/
theorem forEachItems_meta_no_matching (its : List MetaKeyRes) (err : Option GrpcError) (i : Info)
    (h : ∀ mk ∈ its, mk.id ≠ metaKeyTagToID labelsMeta) :
    forEachItems pollMetaItem err its i = (err, i) := by
  induction its generalizing i with
  | nil => rfl
  | cons r rs ih =>
    have hr : pollMetaItem r i = .ok i :=
      pollMetaItem_not_matching r i (h r (List.mem_cons_self r rs))
    simp only [forEachItems, hr]
    exact ih i (fun mk hmk => h mk (List.mem_cons_of_mem r hmk))

/-- C7: `pollMeta` consumes only the meta key whose id is derived from the
labels meta tag — all other meta keys leave `Info` unchanged (per item and
for whole runs) — the consumed value is decoded and stored as
`Info.ImageLabels` (masked via `metaApply`), and when the decoded `Labels`
map is nil the `LegacyLabels` shape is used instead as the decoded map. -/
theorem pollMeta_consumes_only_labels_key (c : Client) (i : Info) :
    ((∀ mk ∈ c.metaKeyScan.items, mk.id ≠ metaKeyTagToID labelsMeta) →
      (pollMeta c i).2 = i) ∧
    (∀ mk, mk.id ≠ metaKeyTagToID labelsMeta → pollMetaItem mk i = .ok i) ∧
    (∀ mk blob, mk.id = metaKeyTagToID labelsMeta → mk.parsedValue = .ok blob →
      pollMetaItem mk i = .ok { i with imageLabels := metaApply i.machineLabels blob }) ∧
    (∀ blob : ImageLabels, blob.labels = none → decodedLabels blob = blob.legacyLabels) := by
  refine ⟨?_, ?_, ?_, ?_⟩
  · intro h
    have : forEachItems pollMetaItem c.metaKeyScan.err c.metaKeyScan.items i =
        (c.metaKeyScan.err, i) :=
      forEachItems_meta_no_matching c.metaKeyScan.items c.metaKeyScan.err i h
    simpa [pollMeta, forEachResource] using congrArg Prod.snd this
  · intro mk hmk
    exact pollMetaItem_not_matching mk i hmk
  · intro mk blob hid hp
    exact pollMetaItem_matching mk i blob hid hp
  · intro blob hb
    simp [decodedLabels, hb]

/-- Witness for C7: a non-labels meta key leaves `Info` unchanged, the
labels meta key stores its decoded blob, and a nil `Labels` map falls back
to the legacy shape. -/
theorem pollMeta_consumes_only_labels_key_witness :
    (pollMeta otherMetaClient emptyInfo).2 = emptyInfo ∧
    pollMetaItem otherMetaKey emptyInfo = .ok emptyInfo ∧
    pollMetaItem labelsMetaKey emptyInfo =
      .ok { emptyInfo with imageLabels := metaApply emptyInfo.machineLabels imageBlob } ∧
    decodedLabels legacyBlob = legacyBlob.legacyLabels :=
  ⟨(pollMeta_consumes_only_labels_key otherMetaClient emptyInfo).1
      (by intro mk hmk; simp only [otherMetaClient, List.mem_singleton] at hmk; subst hmk; decide),
   (pollMeta_consumes_only_labels_key otherMetaClient emptyInfo).2.1 otherMetaKey (by decide),
   (pollMeta_consumes_only_labels_key metaClient emptyInfo).2.2.1 labelsMetaKey imageBlob
      (by decide) rfl,
   (pollMeta_consumes_only_labels_key metaClient emptyInfo).2.2.2 legacyBlob rfl⟩
